import Mathlib

/- Shallow embedding of the HearNow Windows audio capture pipeline
   (windows/runner/audio_capture.cpp, audio_capture.h).

   Modelling conventions:
   - C++ float and double values are modelled as exact rationals.
   - Machine integers are modelled as Nat / Int, with two's-complement
     wrap-around made explicit where byte extraction depends on it.
   - The byte deque audio_bytes_ is a List Nat (each entry one byte).
   - WASAPI calls are modelled by their observable outcomes: boolean
     success flags for InitializeWASAPI and IAudioClient::Start, and an
     action trace for StopSystemAudio. -/

/-! ## Bounded byte buffer (audio_bytes_) -/

/-- Capacity cap applied by the capture thread after each append:
    16000 samples/sec * 2 bytes/sample * 2 sec = 64000 bytes. -/
def bufferCapacity : Nat := 64000

/-- The eviction loop in AudioCapture::CaptureThreadProc:
    while (audio_bytes_.size() > 64000) audio_bytes_.pop_front(). -/
def evictFront (cap : Nat) : List Nat → List Nat
  | [] => []
  | x :: xs => if xs.length + 1 > cap then evictFront cap xs else x :: xs

/-- One append by the capture thread: push every byte of the chunk at the
    back, then evict from the front until the size is within capacity. -/
def appendCapped (buf chunk : List Nat) : List Nat :=
  evictFront bufferCapacity (buf ++ chunk)

/-- The pop loop in AudioCapture::GetSystemAudioFrame: pop n bytes off the
    front of the deque, collecting them in order. -/
def popFrontN : Nat → List Nat → List Nat × List Nat
  | 0, buf => ([], buf)
  | _ + 1, [] => ([], [])
  | n + 1, x :: xs =>
    let r := popFrontN n xs
    (x :: r.1, r.2)

/-- AudioCapture::GetSystemAudioFrame(requested_bytes): returns the pulled
    chunk together with the buffer contents left behind. -/
def GetSystemAudioFrame (requested : Nat) (buf : List Nat) : List Nat × List Nat :=
  if requested = 0 then ([], buf)
  else if buf.length = 0 then ([], buf)
  else popFrontN (min requested buf.length) buf

theorem evictFront_eq_drop (cap : Nat) (l : List Nat) :
    evictFront cap l = l.drop (l.length - cap) := by
  induction l with
  | nil => simp [evictFront]
  | cons x xs ih =>
    rw [evictFront]
    by_cases h : xs.length + 1 > cap
    · rw [if_pos h, ih]
      have h1 : (x :: xs).length - cap = (xs.length - cap) + 1 := by
        simp only [List.length_cons]; omega
      rw [h1, List.drop_succ_cons]
    · rw [if_neg h]
      have h1 : (x :: xs).length - cap = 0 := by
        simp only [List.length_cons]; omega
      rw [h1, List.drop_zero]

theorem length_evictFront_le (cap : Nat) (l : List Nat) :
    (evictFront cap l).length ≤ cap := by
  rw [evictFront_eq_drop, List.length_drop]
  omega

theorem popFrontN_eq (n : Nat) (l : List Nat) :
    popFrontN n l = (l.take n, l.drop n) := by
  induction n generalizing l with
  | zero => rfl
  | succ n ih =>
    cases l with
    | nil => rfl
    | cons x xs => simp [popFrontN, ih]

/-- Claim C1: after any append by the capture thread the Output Byte Buffer
    holds at most 64000 bytes; appending 70000 bytes to an empty buffer
    leaves exactly 64000 bytes, namely the last 64000 of the appended
    bytes (the first 6000 are evicted). -/
theorem capture_append_bounded (buf chunk : List Nat) :
    (appendCapped buf chunk).length ≤ bufferCapacity ∧
    (chunk.length = 70000 →
      appendCapped [] chunk = chunk.drop 6000 ∧
      (appendCapped [] chunk).length = 64000) := by
  refine ⟨length_evictFront_le _ _, fun h => ⟨?_, ?_⟩⟩
  · rw [appendCapped, List.nil_append, evictFront_eq_drop, h]
    norm_num [bufferCapacity]
  · rw [appendCapped, List.nil_append, evictFront_eq_drop, List.length_drop, h]
    norm_num [bufferCapacity]

theorem capture_append_bounded_witness :
    (appendCapped [] (List.replicate 70000 0)).length ≤ bufferCapacity ∧
    appendCapped [] (List.replicate 70000 0) = (List.replicate 70000 0).drop 6000 ∧
    (appendCapped [] (List.replicate 70000 0)).length = 64000 := by
  have h := capture_append_bounded [] (List.replicate 70000 0)
  have hlen : (List.replicate 70000 (0 : Nat)).length = 70000 := List.length_replicate 70000 0
  exact ⟨h.1, (h.2 hlen).1, (h.2 hlen).2⟩

/-- Claim C2: GetSystemAudioFrame returns up to the requested number of
    bytes taken from the front of the buffer, removes exactly those bytes
    (FIFO: pulled bytes followed by the remainder reassemble the original
    buffer), and yields an empty result, leaving the buffer untouched, when
    the request is zero or the buffer is empty. -/
theorem pullChunk_spec (requested : Nat) (buf : List Nat) :
    (GetSystemAudioFrame requested buf).1 = buf.take (min requested buf.length) ∧
    (GetSystemAudioFrame requested buf).2 = buf.drop (min requested buf.length) ∧
    (GetSystemAudioFrame requested buf).1 ++ (GetSystemAudioFrame requested buf).2 = buf ∧
    (requested = 0 ∨ buf = [] →
      (GetSystemAudioFrame requested buf).1 = [] ∧
      (GetSystemAudioFrame requested buf).2 = buf) := by
  have hmain : (GetSystemAudioFrame requested buf).1 = buf.take (min requested buf.length) ∧
      (GetSystemAudioFrame requested buf).2 = buf.drop (min requested buf.length) := by
    rw [GetSystemAudioFrame]
    by_cases h0 : requested = 0
    · subst h0
      simp
    · rw [if_neg h0]
      by_cases hb : buf.length = 0
      · rw [if_pos hb]
        rw [List.length_eq_zero] at hb
        subst hb
        simp
      · rw [if_neg hb, popFrontN_eq]
        exact ⟨rfl, rfl⟩
  refine ⟨hmain.1, hmain.2, ?_, ?_⟩
  · rw [hmain.1, hmain.2, List.take_append_drop]
  · rintro (h | h)
    · subst h
      simp [hmain.1, hmain.2]
    · subst h
      simp [hmain.1, hmain.2]

theorem pullChunk_spec_witness :
    (GetSystemAudioFrame 0 [1, 2, 3]).1 = [] ∧
    (GetSystemAudioFrame 0 [1, 2, 3]).2 = [1, 2, 3] := by
  exact (pullChunk_spec 0 [1, 2, 3]).2.2.2 (Or.inl rfl)

/-! ## Sample formats and format detection (IsFloatFormat, IsPcm16Format) -/

def WAVE_FORMAT_PCM : Nat := 1
def WAVE_FORMAT_IEEE_FLOAT : Nat := 3
def WAVE_FORMAT_EXTENSIBLE : Nat := 65534

/-- The KSDATAFORMAT_SUBTYPE GUID stored in a WAVEFORMATEXTENSIBLE,
    reduced to the three cases the code distinguishes. -/
inductive SubFormat where
  | pcm
  | ieeeFloat
  | other
deriving DecidableEq, BEq

/-- WAVEFORMATEX together with the SubFormat field of its extensible
    extension (only consulted when wFormatTag = WAVE_FORMAT_EXTENSIBLE). -/
structure WaveFormat where
  wFormatTag : Nat
  nChannels : Nat
  nSamplesPerSec : Nat
  wBitsPerSample : Nat
  subFormat : SubFormat
deriving DecidableEq

/-- IsFloatFormat from audio_capture.cpp. -/
def IsFloatFormat : Option WaveFormat → Bool
  | none => false
  | some fmt =>
    (fmt.wFormatTag == WAVE_FORMAT_IEEE_FLOAT && fmt.wBitsPerSample == 32) ||
    (fmt.wFormatTag == WAVE_FORMAT_EXTENSIBLE &&
      fmt.subFormat == SubFormat.ieeeFloat && fmt.wBitsPerSample == 32)

/-- IsPcm16Format from audio_capture.cpp. -/
def IsPcm16Format : Option WaveFormat → Bool
  | none => false
  | some fmt =>
    (fmt.wFormatTag == WAVE_FORMAT_PCM && fmt.wBitsPerSample == 16) ||
    (fmt.wFormatTag == WAVE_FORMAT_EXTENSIBLE &&
      fmt.subFormat == SubFormat.pcm && fmt.wBitsPerSample == 16)

/-! ## Clamping and 16-bit PCM quantization (ClampFloat, FloatToPcm16) -/

/-- ClampFloat from audio_capture.cpp, over exact rationals. -/
def ClampFloat (v : ℚ) : ℚ :=
  if v < -1 then -1
  else if v > 1 then 1
  else v

/-- Truncation toward zero: the semantics of static_cast to int16_t for a
    value already inside the representable range. -/
def truncQ (q : ℚ) : Int :=
  if 0 ≤ q then Int.floor q else Int.ceil q

/-- FloatToPcm16 from audio_capture.cpp. -/
def FloatToPcm16 (v : ℚ) : Int :=
  let c := ClampFloat v
  let scaled := c * 32767
  if scaled < -32768 then -32768
  else if scaled > 32767 then 32767
  else truncQ scaled

/-- The 16-bit two's-complement pattern of an int16 value, from which the
    low byte (s & 0xFF) and high byte ((s >> 8) & 0xFF) are read off. -/
def int16ToU16 (s : Int) : Nat := (s % 65536).toNat

/-- MonoFloatToPcm16Bytes from audio_capture.cpp: two bytes per sample,
    least-significant byte first. -/
def MonoFloatToPcm16Bytes : List ℚ → List Nat
  | [] => []
  | v :: rest =>
    let u := int16ToU16 (FloatToPcm16 v)
    u % 256 :: u / 256 % 256 :: MonoFloatToPcm16Bytes rest

/-! ## Format normalizer (ToMonoFloat) -/

/-- The raw interleaved packet delivered by the capture client, seen through
    the two reinterpretations the code applies to its bytes: as an array of
    32-bit floats and as an array of signed 16-bit integers. -/
structure RawPacket where
  floatAt : Nat → ℚ
  int16At : Nat → Int

/-- ToMonoFloat from audio_capture.cpp: returns the C++ bool result paired
    with the contents of outMono. -/
def ToMonoFloat (fmt : Option WaveFormat) (input : Option RawPacket)
    (frames : Nat) : Bool × List ℚ :=
  match fmt, input with
  | none, _ => (false, [])
  | _, none => (false, [])
  | some f, some p =>
    if frames = 0 then (false, [])
    else if f.nChannels = 0 then (false, [])
    else if IsFloatFormat (some f) then
      (true, (List.range frames).map fun i =>
        ((List.range f.nChannels).foldl
          (fun sum ch => sum + p.floatAt (i * f.nChannels + ch)) 0) / (f.nChannels : ℚ))
    else if IsPcm16Format (some f) then
      (true, (List.range frames).map fun i =>
        ((((List.range f.nChannels).foldl
          (fun sum ch => sum + p.int16At (i * f.nChannels + ch)) 0 : Int) : ℚ) /
          (f.nChannels : ℚ)) / 32768)
    else (true, List.replicate frames 0)

/-- Claim C5: for a non-null descriptor with at least one channel and a
    non-null packet, ToMonoFloat fills outMono with exactly frames samples,
    and an encoding that is neither 32-bit float nor 16-bit PCM yields
    frames zeros instead of a failure. -/
theorem normalize_length (f : WaveFormat) (p : RawPacket) (frames : Nat)
    (hch : 1 ≤ f.nChannels) :
    (ToMonoFloat (some f) (some p) frames).2.length = frames ∧
    (IsFloatFormat (some f) = false → IsPcm16Format (some f) = false →
      (ToMonoFloat (some f) (some p) frames).2 = List.replicate frames 0) := by
  have hch0 : ¬ f.nChannels = 0 := by omega
  constructor
  · rw [ToMonoFloat]
    by_cases h0 : frames = 0
    · simp [h0]
    · rw [if_neg h0, if_neg hch0]
      by_cases hf : IsFloatFormat (some f)
      · simp [hf]
      · rw [if_neg hf]
        by_cases hp : IsPcm16Format (some f)
        · simp [hp]
        · simp [hp]
  · intro hf hp
    rw [ToMonoFloat]
    by_cases h0 : frames = 0
    · simp [h0]
    · rw [if_neg h0, if_neg hch0, if_neg (by simp [hf]), if_neg (by simp [hp])]

/-- An unrecognized descriptor: 8-bit integer PCM. -/
def fmtUnknown : WaveFormat :=
  { wFormatTag := 1, nChannels := 2, nSamplesPerSec := 48000,
    wBitsPerSample := 8, subFormat := SubFormat.other }

/-- A packet whose bytes read as zero under both reinterpretations. -/
def zeroPacket : RawPacket :=
  { floatAt := fun _ => 0, int16At := fun _ => 0 }

theorem normalize_length_witness :
    1 ≤ fmtUnknown.nChannels ∧
    (ToMonoFloat (some fmtUnknown) (some zeroPacket) 5).2.length = 5 ∧
    (ToMonoFloat (some fmtUnknown) (some zeroPacket) 5).2 = List.replicate 5 0 := by
  have h := normalize_length fmtUnknown zeroPacket 5 (by decide)
  exact ⟨by decide, h.1, h.2 rfl rfl⟩

theorem floatToPcm16_three_halves : FloatToPcm16 (3 / 2) = 32767 := by
  have hclamp : ClampFloat (3 / 2) = 1 := by
    rw [ClampFloat, if_neg (by norm_num), if_pos (by norm_num)]
  simp only [FloatToPcm16, hclamp, one_mul]
  rw [if_neg (by norm_num), if_neg (by norm_num), truncQ, if_pos (by norm_num)]
  simp

theorem monoFloatToPcm16Bytes_three_halves :
    MonoFloatToPcm16Bytes [3 / 2] = [255, 127] := by
  rw [MonoFloatToPcm16Bytes, MonoFloatToPcm16Bytes]
  simp only [floatToPcm16_three_halves, int16ToU16]
  decide

/-- Claim C7: the PCM encoder emits exactly two bytes per input sample,
    little endian; the out-of-range sample 3/2 is clamped to 1, quantized to
    32767, and encoded as the bytes 255 (0xFF) then 127 (0x7F). -/
theorem encode_spec (mono : List ℚ) :
    (MonoFloatToPcm16Bytes mono).length = 2 * mono.length ∧
    FloatToPcm16 (3 / 2) = 32767 ∧
    MonoFloatToPcm16Bytes [3 / 2] = [255, 127] := by
  refine ⟨?_, floatToPcm16_three_halves, monoFloatToPcm16Bytes_three_halves⟩
  induction mono with
  | nil => rfl
  | cons v rest ih =>
    rw [MonoFloatToPcm16Bytes]
    simp only [List.length_cons, ih]
    omega

theorem floatToPcm16_neg_one : FloatToPcm16 (-1) = -32767 := by
  have hclamp : ClampFloat (-1) = -1 := by
    rw [ClampFloat, if_neg (by norm_num), if_neg (by norm_num)]
  simp only [FloatToPcm16, hclamp]
  rw [if_neg (by norm_num), if_neg (by norm_num), truncQ, if_neg (by norm_num)]
  have h1 : (-1 : ℚ) * 32767 = ((-32767 : ℤ) : ℚ) := by norm_num
  rw [h1, Int.ceil_intCast]

theorem monoFloatToPcm16Bytes_neg_one :
    MonoFloatToPcm16Bytes [-1] = [1, 128] := by
  rw [MonoFloatToPcm16Bytes, MonoFloatToPcm16Bytes]
  simp only [floatToPcm16_neg_one, int16ToU16]
  decide

/-- Claim C10: every quantized PCM value lies in [-32767, 32767]; in
    particular -32768 is never produced, and the most negative sample -1
    maps to -32767, encoded as the bytes 1 (0x01) then 128 (0x80). -/
theorem pcm_value_range (v : ℚ) :
    -32767 ≤ FloatToPcm16 v ∧ FloatToPcm16 v ≤ 32767 ∧
    FloatToPcm16 v ≠ -32768 ∧
    FloatToPcm16 (-1) = -32767 ∧
    MonoFloatToPcm16Bytes [-1] = [1, 128] := by
  have hc : -1 ≤ ClampFloat v ∧ ClampFloat v ≤ 1 := by
    rw [ClampFloat]
    by_cases h1 : v < -1
    · rw [if_pos h1]; norm_num
    · rw [if_neg h1]
      by_cases h2 : v > 1
      · rw [if_pos h2]; norm_num
      · rw [if_neg h2]
        constructor <;> linarith [not_lt.mp h1, not_lt.mp h2]
  have hs1 : -32767 ≤ ClampFloat v * 32767 := by nlinarith [hc.1]
  have hs2 : ClampFloat v * 32767 ≤ 32767 := by nlinarith [hc.2]
  have hrange : -32767 ≤ FloatToPcm16 v ∧ FloatToPcm16 v ≤ 32767 := by
    rw [FloatToPcm16]
    rw [if_neg (by push_neg; linarith), if_neg (by push_neg; linarith)]
    rw [truncQ]
    by_cases h0 : 0 ≤ ClampFloat v * 32767
    · rw [if_pos h0]
      constructor
      · have : (0 : Int) ≤ Int.floor (ClampFloat v * 32767) := by
          exact_mod_cast Int.floor_nonneg.mpr h0
        omega
      · have : Int.floor (ClampFloat v * 32767) ≤ Int.floor ((32767 : ℚ)) :=
          Int.floor_le_floor hs2
        simpa using this
    · rw [if_neg h0]
      constructor
      · have : Int.ceil ((-32767 : ℚ)) ≤ Int.ceil (ClampFloat v * 32767) :=
          Int.ceil_le_ceil hs1
        simpa using this
      · have : Int.ceil (ClampFloat v * 32767) ≤ Int.ceil ((0 : ℚ)) :=
          Int.ceil_le_ceil (le_of_not_le h0)
        simp at this
        omega
  exact ⟨hrange.1, hrange.2, by omega, floatToPcm16_neg_one, monoFloatToPcm16Bytes_neg_one⟩

/-! ## Rate converter (ResampleLinear) -/

/-- ResampleLinear from audio_capture.cpp: linear resampling of a mono
    sequence from inRate to outRate, with the C++ doubles modelled as
    exact rationals. -/
def ResampleLinear (inMono : List ℚ) (inRate outRate : Nat) : List ℚ :=
  if inMono = [] ∨ inRate = 0 ∨ outRate = 0 then []
  else if inRate = outRate then inMono
  else
    let ratio : ℚ := (outRate : ℚ) / (inRate : ℚ)
    let outCount : Nat := max 1 (Nat.floor ((inMono.length : ℚ) * ratio))
    (List.range outCount).map fun (j : Nat) =>
      let pos : ℚ := ((j : ℚ) * (inRate : ℚ)) / (outRate : ℚ)
      let i0 : Nat := Nat.floor pos
      let i1 : Nat := if i0 + 1 < inMono.length then i0 + 1 else i0
      let frac : ℚ := pos - (i0 : ℚ)
      (1 - frac) * inMono.getD i0 0 + frac * inMono.getD i1 0

/-- Claim C6: for nonempty input and nonzero rates the resampler produces
    exactly max 1 (floor of inputLength * targetRate / sourceRate) samples;
    empty input or a zero rate on either side yields an empty output. -/
theorem resample_length (s : List ℚ) (r1 r2 : Nat) :
    (s ≠ [] → 0 < r1 → 0 < r2 →
      (ResampleLinear s r1 r2).length = max 1 (s.length * r2 / r1)) ∧
    (s = [] ∨ r1 = 0 ∨ r2 = 0 → ResampleLinear s r1 r2 = []) := by
  constructor
  · intro hs h1 h2
    rw [ResampleLinear, if_neg (by push_neg; exact ⟨hs, by omega, by omega⟩)]
    by_cases hEq : r1 = r2
    · rw [if_pos hEq]
      subst hEq
      have hdiv : s.length * r1 / r1 = s.length := Nat.mul_div_cancel _ h1
      have hlen : 1 ≤ s.length := List.length_pos.mpr hs
      rw [hdiv]
      omega
    · rw [if_neg hEq]
      simp only [List.length_map, List.length_range]
      have hcast : (s.length : ℚ) * ((r2 : ℚ) / (r1 : ℚ)) =
          ((s.length * r2 : Nat) : ℚ) / ((r1 : Nat) : ℚ) := by
        push_cast
        ring
      rw [hcast, Nat.floor_div_eq_div]
  · intro h
    rw [ResampleLinear, if_pos h]

theorem resample_length_witness :
    (ResampleLinear [0, 1] 2 4).length = max 1 ([(0 : ℚ), 1].length * 4 / 2) ∧
    ResampleLinear [0, 1] 0 4 = [] := by
  have h1 := resample_length [0, 1] 2 4
  have h2 := resample_length [0, 1] 0 4
  exact ⟨h1.1 (by simp) (by omega) (by omega), h2.2 (Or.inr (Or.inl rfl))⟩

/-- Claim C8 as stated fails at rate 0: with source and target rate both 0
    the resampler returns the empty list, not the nonempty input. -/
theorem resample_same_rate_cex : ResampleLinear [1] 0 0 ≠ [1] := by
  rw [ResampleLinear, if_pos (Or.inr (Or.inl rfl))]
  simp

/-- Claim C8 (amended): for every mono sequence and every positive rate,
    resampling with equal source and target rate returns the input
    unchanged; at rate 0 the result is empty instead. -/
theorem resample_same_rate (s : List ℚ) (r : Nat) (hr : 0 < r) :
    ResampleLinear s r r = s := by
  by_cases hs : s = []
  · subst hs
    rw [ResampleLinear, if_pos (Or.inl rfl)]
  · rw [ResampleLinear, if_neg (by push_neg; exact ⟨hs, by omega, by omega⟩), if_pos rfl]

theorem resample_same_rate_witness : ResampleLinear [1] 3 3 = [1] :=
  resample_same_rate [1] 3 (by omega)

/-! ## Capture session lifecycle (StartSystemAudio, StopSystemAudio)

The WASAPI calls are modelled by their observable outcomes: initOk is the
boolean result of InitializeWASAPI, streamOk the success of
IAudioClient::Start.  live_threads counts capture threads that have been
spawned and not yet joined; thread_handle models capture_thread_ being
non-null; init_runs counts invocations of InitializeWASAPI. -/

inductive StopAction where
  | clearFlag
  | stopStream
  | joinThread
deriving DecidableEq, BEq

/-- The fields of class AudioCapture that drive control flow, plus thread
    accounting. -/
structure Session where
  is_capturing : Bool
  is_initialized : Bool
  has_audio_client : Bool
  has_audio_event : Bool
  thread_handle : Bool
  live_threads : Nat
  init_runs : Nat
deriving DecidableEq

/-- AudioCapture::StartSystemAudio: lazily initialize WASAPI, check the
    event handle, set the capturing flag, spawn the capture thread
    (overwriting capture_thread_), then start the hardware stream; on a
    stream-start failure clear the flag and join and delete the thread. -/
def StartSystemAudio (s : Session) (initOk streamOk : Bool) : Session × Bool :=
  if s.is_initialized = false ∧ initOk = false then
    ({ s with init_runs := s.init_runs + 1 }, false)
  else
    let s1 := if s.is_initialized then s
      else { s with is_initialized := true, has_audio_client := true,
                    has_audio_event := true, init_runs := s.init_runs + 1 }
    if s1.has_audio_event = false then (s1, false)
    else
      let s2 := { s1 with is_capturing := true, thread_handle := true,
                          live_threads := s1.live_threads + 1 }
      if streamOk = false then
        ({ s2 with is_capturing := false, thread_handle := false,
                   live_threads := s2.live_threads - 1 }, false)
      else (s2, true)

/-- AudioCapture::StopSystemAudio, with the order of its observable actions
    recorded: when capturing, it clears is_capturing_, calls
    audio_client_->Stop() if the client exists, and then joins and deletes
    the capture thread if one exists; otherwise it does nothing. -/
def StopSystemAudio (s : Session) : Session × List StopAction :=
  if s.is_capturing then
    let acts := [StopAction.clearFlag] ++
      (if s.has_audio_client then [StopAction.stopStream] else []) ++
      (if s.thread_handle then [StopAction.joinThread] else [])
    if s.thread_handle then
      ({ s with is_capturing := false, thread_handle := false,
                live_threads := s.live_threads - 1 }, acts)
    else
      ({ s with is_capturing := false }, acts)
  else (s, [])

/-- a occurs strictly before the first later occurrence of b: at the first
    occurrence of a, b still lies further down the list. -/
def occursBefore (a b : StopAction) : List StopAction → Bool
  | [] => false
  | x :: xs => if x == a then xs.contains b else occursBefore a b xs

/-- A session in the Capturing state with all resources acquired. -/
def capturingSession : Session :=
  { is_capturing := true, is_initialized := true, has_audio_client := true,
    has_audio_event := true, thread_handle := true, live_threads := 1,
    init_runs := 1 }

/-- A freshly constructed session (the AudioCapture constructor). -/
def freshSession : Session :=
  { is_capturing := false, is_initialized := false, has_audio_client := false,
    has_audio_event := false, thread_handle := false, live_threads := 0,
    init_runs := 0 }

/-- An initialized session that is not capturing (after a stop, or after a
    failed stream start). -/
def initializedIdle : Session :=
  { is_capturing := false, is_initialized := true, has_audio_client := true,
    has_audio_event := true, thread_handle := true, live_threads := 0,
    init_runs := 1 }

/-- Claim C3 as stated fails on the code: on a capturing session the
    implementation stops the hardware stream before joining the capture
    thread, so the join does not occur before the stream stop in the
    action trace. -/
theorem stop_order_cex :
    (StopSystemAudio capturingSession).2
      = [StopAction.clearFlag, StopAction.stopStream, StopAction.joinThread] ∧
    occursBefore StopAction.joinThread StopAction.stopStream
      (StopSystemAudio capturingSession).2 = false := by
  decide

/-- Claim C3 (amended): StopSystemAudio is a no-op on a session that is not
    capturing (no actions, hence no join and no blocking), it is idempotent,
    it always leaves the capturing flag cleared, and on a capturing session
    with a client and a thread it clears the flag, stops the hardware
    stream, and then joins the capture thread - the stream stop precedes
    the join. -/
theorem stop_spec (s : Session) :
    (s.is_capturing = false → StopSystemAudio s = (s, [])) ∧
    (StopSystemAudio (StopSystemAudio s).1).1 = (StopSystemAudio s).1 ∧
    (StopSystemAudio s).1.is_capturing = false ∧
    (s.is_capturing = true → s.has_audio_client = true → s.thread_handle = true →
      (StopSystemAudio s).2
        = [StopAction.clearFlag, StopAction.stopStream, StopAction.joinThread] ∧
      occursBefore StopAction.stopStream StopAction.joinThread
        (StopSystemAudio s).2 = true) := by
  by_cases hc : s.is_capturing
  · by_cases ht : s.thread_handle
    · refine ⟨fun h => absurd hc (by simp [h]), ?_, ?_, fun _ hcl htt => ?_⟩
      · simp [StopSystemAudio, hc, ht]
      · simp [StopSystemAudio, hc, ht]
      · refine ⟨by simp [StopSystemAudio, hc, ht, hcl], ?_⟩
        simp only [StopSystemAudio, hc, ht, hcl, if_pos]
        decide
    · refine ⟨fun h => absurd hc (by simp [h]), ?_, ?_, fun _ _ htt => ?_⟩
      · simp [StopSystemAudio, hc, ht]
      · simp [StopSystemAudio, hc, ht]
      · rw [htt] at ht; cases ht rfl
  · have hc0 : s.is_capturing = false := by
      cases h : s.is_capturing
      · rfl
      · rw [h] at hc; cases hc rfl
    refine ⟨fun _ => by simp [StopSystemAudio, hc], ?_, ?_, fun hcl => ?_⟩
    · simp [StopSystemAudio, hc]
    · simp [StopSystemAudio, hc, hc0]
    · rw [hcl] at hc; cases hc rfl

theorem stop_spec_witness :
    StopSystemAudio initializedIdle = (initializedIdle, []) ∧
    (StopSystemAudio capturingSession).2
      = [StopAction.clearFlag, StopAction.stopStream, StopAction.joinThread] := by
  have h1 := stop_spec initializedIdle
  have h2 := stop_spec capturingSession
  exact ⟨h1.1 rfl, ((h2.2.2.2) rfl rfl rfl).1⟩

/-- Claim C4: when the hardware stream fails to start after the capture
    thread was spawned (the start attempt got past initialization and the
    event check), StartSystemAudio returns false with the capturing flag
    cleared, the spawned thread joined and discarded, no extra thread left
    running, and a subsequent start with a working stream succeeds. -/
theorem partial_start_rollback (s : Session) (initOk : Bool)
    (hev : s.is_initialized = true → s.has_audio_event = true)
    (hinit : s.is_initialized = true ∨ initOk = true) :
    (StartSystemAudio s initOk false).2 = false ∧
    (StartSystemAudio s initOk false).1.is_capturing = false ∧
    (StartSystemAudio s initOk false).1.thread_handle = false ∧
    (StartSystemAudio s initOk false).1.live_threads = s.live_threads ∧
    (StartSystemAudio (StartSystemAudio s initOk false).1 initOk true).2 = true := by
  by_cases hi : s.is_initialized = true
  · have he := hev hi
    simp [StartSystemAudio, hi, he]
  · have hok : initOk = true := by
      rcases hinit with h | h
      · exact absurd h hi
      · exact h
    simp [StartSystemAudio, hi, hok]

theorem partial_start_rollback_witness :
    (StartSystemAudio freshSession true false).2 = false ∧
    (StartSystemAudio freshSession true false).1.is_capturing = false ∧
    (StartSystemAudio freshSession true false).1.thread_handle = false ∧
    (StartSystemAudio freshSession true false).1.live_threads = freshSession.live_threads ∧
    (StartSystemAudio (StartSystemAudio freshSession true false).1 true true).2 = true := by
  exact partial_start_rollback freshSession true (by intro h; exact absurd h (by decide))
    (Or.inr rfl)

/-- Claim C9 as stated fails on the code: a second successful
    StartSystemAudio call on an already-capturing session spawns a second
    capture thread while the first is still live (the raw thread pointer is
    overwritten without a join), so the active session then has two capture
    threads rather than exactly one. -/
theorem single_thread_cex :
    (StartSystemAudio (StartSystemAudio freshSession true true).1 true true).2 = true ∧
    (StartSystemAudio (StartSystemAudio freshSession true true).1 true true).1.is_capturing
      = true ∧
    (StartSystemAudio (StartSystemAudio freshSession true true).1 true true).1.live_threads
      = 2 := by
  decide

/-- Claim C9 (amended): StartSystemAudio initializes the device resources
    lazily and at most once (a call on an already-initialized session runs
    no further initialization), every successful call sets the capturing
    flag and spawns exactly one new capture thread, and a successful start
    of a session with no live capture thread leaves exactly one; a second
    start while already capturing, however, adds a further thread. -/
theorem start_spec (s : Session) (initOk streamOk : Bool) :
    (s.is_initialized = true →
      (StartSystemAudio s initOk streamOk).1.init_runs = s.init_runs ∧
      (StartSystemAudio s initOk streamOk).1.is_initialized = true) ∧
    ((StartSystemAudio s initOk streamOk).2 = true →
      (StartSystemAudio s initOk streamOk).1.is_capturing = true ∧
      (StartSystemAudio s initOk streamOk).1.live_threads = s.live_threads + 1) ∧
    (s.live_threads = 0 → (StartSystemAudio s initOk streamOk).2 = true →
      (StartSystemAudio s initOk streamOk).1.live_threads = 1) := by
  rcases s with ⟨c, i, cl, ev, th, lt, ir⟩
  cases i <;> cases ev <;> cases initOk <;> cases streamOk <;>
    (simp [StartSystemAudio]; try omega)

theorem start_spec_witness :
    (StartSystemAudio initializedIdle true true).1.init_runs = initializedIdle.init_runs ∧
    (StartSystemAudio initializedIdle true true).1.is_capturing = true ∧
    (StartSystemAudio initializedIdle true true).1.live_threads = 1 := by
  have h := start_spec initializedIdle true true
  exact ⟨(h.1 rfl).1, (h.2.1 (by decide)).1, h.2.2 rfl (by decide)⟩
